import Mathlib

/-!
Verification development for the `pcpp` single-file C preprocessor
(`src/pcpp/pcpp.py`).  The Python code is shallowly embedded: tokens and
macros become Lean structures, the in-place list mutations of the Python
methods become explicit list reconstruction, Python exceptions become an
`Exc`-valued `Except`, and the unbounded `while` loops are driven by an
explicit fuel parameter (fuel exhaustion is reported as `Exc.fuelExhausted`,
a value never produced when enough fuel is supplied).
-/

deriving instance DecidableEq for Except

namespace Pcpp

/-- A lexer token, mirroring the PLY `LexToken` as used by the preprocessor.
`type` is the token class tag (`"CPP_ID"`, `"CPP_INTEGER"`, `"CPP_WS"`,
`"CPP_STRING"`, a punctuation character, ...), `value` the exact spelling,
`lineno` the 1-based line, `source` the source-name attribute set by
`group_lines` (`none` models the attribute being absent, e.g. on tokens made
by `tokenize`), and `expanded_from` the recursion-prevention list attached by
`expand_macros` (its default `[]` models the `hasattr` initialisation that
sets the attribute to `[]` when missing). -/
structure Token where
  type : String
  value : String
  lineno : Nat := 1
  source : Option String := none
  expanded_from : List String := []
deriving Repr, DecidableEq, Inhabited

/-- Python exceptions that can escape the embedded code paths. -/
inductive Exc where
  | indexError
  | attrError
  | fuelExhausted
deriving Repr, DecidableEq

/-- The diagnostic messages produced through `Preprocessor.error`.  Each
constructor stands for one literal format string of the source; the literal
text is irrelevant to the claims, which only count and locate diagnostics. -/
inductive Msg where
  | missingLParenMacroArgs
  | missingRParenMacroArgs
  | macroRequiresArgs (name : String) (need got : Nat)
  | macroAtLeastArgs (name : String) (need : Nat)
  | malformedDefined
  | couldntEvaluate
  | malformedIncludeAngle
  | malformedIncludeStmt
  | couldntFindFile (f : String)
  | misplacedElif
  | misplacedElse
  | misplacedEndif
  | noMoreArgsAfterVariadic
  | badMacroDefinition
deriving Repr, DecidableEq

/-- One call of `Preprocessor.error`: the `(file, line, msg)` triple the
source passes to it. -/
structure Diagnostic where
  source : Option String := none
  lineno : Nat := 0
  msg : Msg
deriving Repr, DecidableEq

/-- `tok.type in self.t_WS`: the probe of the default lexer yields
`t_SPACE = t_NEWLINE = "CPP_WS"`, so whitespace membership is equality with
`"CPP_WS"`. -/
def isWS (t : Token) : Bool :=
  t.type = "CPP_WS"

/-- `Preprocessor.tokenstrip`: drop leading and trailing whitespace tokens. -/
def tokenstrip (tokens : List Token) : List Token :=
  ((tokens.dropWhile isWS).reverse.dropWhile isWS).reverse

/-- A macro record (`class Macro` plus the patch lists attached by
`macro_prescan`).  `arglist = none` is an object-like macro; `some l` a
function-like macro with parameter list `l`.  A patch entry is
`(kind, argnum, position)` with kind `'c'` (concatenation, argument spliced
unexpanded) or `'e'` (argument macro-expanded before splicing). -/
structure Macro where
  name : String
  value : List Token
  arglist : Option (List String) := none
  variadic : Bool := false
  vararg : String := ""
  patch : List (Char × Nat × Nat) := []
  str_patch : List (Nat × Nat) := []
  var_comma_patch : List Nat := []
deriving Repr, DecidableEq, Inhabited

/-- The macro table `self.macros`; a later entry for the same name shadows
earlier ones, modelling dictionary replacement. -/
def Macros := List (String × Macro)

/-- Dictionary lookup `self.macros[name]` / `name in self.macros`. -/
def lookupMacro (ms : Macros) (k : String) : Option Macro :=
  (List.find? (fun p => p.1 = k) ms).map (fun p => p.2)

/-- Dictionary store `self.macros[name] = m`. -/
def storeMacro (ms : Macros) (k : String) (m : Macro) : Macros :=
  (k, m) :: ms

/-- Inner loop of `collect_args` (the `while i < tokenlen` loop).  `orig` is
the whole original token list (needed for the `tokenlist[-1]` error case),
`i` the index of the current token, `cur` the accumulating current argument,
`args`/`pos` the results so far. -/
def caLoop (orig : List Token) (ignore_errors : Bool) :
    List Token → Nat → Nat → List Token → List (List Token) → List Nat →
    Except Exc ((Nat × List (List Token) × List Nat) × List Diagnostic)
  | [], _, _, _, _, _ =>
    -- fell off the end: missing ')'
    if ignore_errors then
      .ok ((0, [], []), [])
    else
      match orig.getLast? with
      | none => .error .indexError
      | some tl => .ok ((0, [], []), [⟨tl.source, tl.lineno, .missingRParenMacroArgs⟩])
  | t :: ts, i, nesting, cur, args, pos =>
    if t.value = "(" then
      caLoop orig ignore_errors ts (i + 1) (nesting + 1) (cur ++ [t]) args pos
    else if t.value = ")" then
      if nesting = 1 then
        .ok ((i + 1, args ++ [tokenstrip cur], pos ++ [i]), [])
      else
        caLoop orig ignore_errors ts (i + 1) (nesting - 1) (cur ++ [t]) args pos
    else if t.value = "," && nesting = 1 then
      caLoop orig ignore_errors ts (i + 1) nesting [] (args ++ [tokenstrip cur]) (pos ++ [i + 1])
    else
      caLoop orig ignore_errors ts (i + 1) nesting (cur ++ [t]) args pos

/-- `Preprocessor.collect_args`.  Returns the
`(tokens consumed, arguments, start positions)` triple together with the
diagnostics emitted; `Except.error Exc.indexError` models the `IndexError`
raised by `tokenlist[0]` when the list is empty and errors are reported. -/
def collect_args (tokenlist : List Token) (ignore_errors : Bool) :
    Except Exc ((Nat × List (List Token) × List Nat) × List Diagnostic) :=
  let lead := tokenlist.takeWhile isWS
  let i := lead.length
  match tokenlist.drop i with
  | t :: rest =>
    if t.value = "(" then
      caLoop tokenlist ignore_errors rest (i + 1) 1 [] [] [i + 1]
    else if ignore_errors then
      .ok ((0, [], []), [])
    else
      match tokenlist with
      | [] => .error .indexError
      | t0 :: _ => .ok ((0, [], []), [⟨t0.source, t0.lineno, .missingLParenMacroArgs⟩])
  | [] =>
    if ignore_errors then
      .ok ((0, [], []), [])
    else
      match tokenlist with
      | [] => .error .indexError
      | t0 :: _ => .ok ((0, [], []), [⟨t0.source, t0.lineno, .missingLParenMacroArgs⟩])

/-- `copy.copy(tok)`: a shallow copy.  At the value level of this embedding a
copy is the same token value; reference-level aliasing effects that remain
observable (the in-place mutation of argument lists) are modelled explicitly
where they occur. -/
def copyToken (t : Token) : Token := t

/-- The `hasattr` initialisation at the top of `expand_macros`
(`tok.expanded_from = []` when absent): the embedded `Token` always carries
the field, with `[]` as its default, so this is the identity. -/
def initExpandedFrom (t : Token) : Token := t

/-- `while j < len(tokens) and tokens[j].type in self.t_WS: j += 1`. -/
def skipWS (tokens : List Token) (j : Nat) : Nat :=
  j + ((tokens.drop j).takeWhile isWS).length

/-- The whitespace-collapsing loop inside the stringification branch of
`macro_expand_args` (`del tokens[j+1]` while two consecutive whitespace
tokens remain).  Fuel-driven; each step shortens the list or moves past one
token, so `length + 1` fuel suffices. -/
def collapseWS : Nat → List Token → List Token
  | 0, ts => ts
  | _, [] => []
  | _ + 1, [t] => [t]
  | fuel + 1, t1 :: t2 :: ts =>
    if isWS t1 && isWS t2 then collapseWS fuel (t1 :: ts)
    else t1 :: collapseWS fuel (t2 :: ts)

/-- Whether a list starts with the given pattern. -/
def listStartsWith : List Char → List Char → Bool
  | _, [] => true
  | [], _ :: _ => false
  | a :: as, b :: bs => a = b && listStartsWith as bs

/-- Python `str.replace(pat, rep)`: left-to-right, non-overlapping
replacement of every occurrence (fuel-driven; each step consumes at least
one character of `s`, so `length + 1` fuel suffices). -/
def replaceAll : Nat → List Char → List Char → List Char → List Char
  | 0, s, _, _ => s
  | _ + 1, [], _, _ => []
  | fuel + 1, c :: cs, pat, rep =>
    if pat ≠ [] ∧ listStartsWith (c :: cs) pat then
      rep ++ replaceAll fuel ((c :: cs).drop pat.length) pat rep
    else c :: replaceAll fuel cs pat rep

/-- `s.replace(pat, rep)` on strings. -/
def strReplace (s pat rep : String) : String :=
  String.mk (replaceAll (s.length + 1) s.data pat.data rep.data)

/-- `str.replace("\\","\\\\").replace('"', '\\"')` of the stringification. -/
def escapeStr (s : String) : String :=
  strReplace (strReplace s "\\" "\\\\") "\"" "\\\""

/-- The `str_patch` loop of `macro_expand_args`.  `rep` is the replacement
under construction (`none` marks a slot deleted later), `args` the argument
lists (returned because the whitespace rewrite `tokens[j].value = ' '`
mutates tokens shared with the caller through the shallow list copy), and
`memo` the `str_expansion` memo table. -/
def strPatchLoop : List (Nat × Nat) → List (Option Token) → List (List Token) →
    List (Nat × String) → (List (Option Token) × List (List Token) × List (Nat × String))
  | [], rep, args, memo => (rep, args, memo)
  | (argnum, i) :: ps, rep, args, memo =>
    match memo.find? (fun p => p.1 = argnum) with
    | some pr =>
      let rep' := rep.set i ((rep.getD i none).map (fun tk => { tk with value := pr.2 }))
      strPatchLoop ps rep' args memo
    | none =>
      let argToks := args.getD argnum []
      let wsFixed := argToks.map (fun tk => if isWS tk then { tk with value := " " } else tk)
      let s := "\"" ++ escapeStr
        (String.join ((collapseWS (wsFixed.length + 1) wsFixed).map (fun tk => tk.value))) ++ "\""
      let rep' := rep.set i ((rep.getD i none).map (fun tk => { tk with value := s }))
      strPatchLoop ps rep' (args.set argnum wsFixed) (memo ++ [(argnum, s)])

/-- The annotation loop `for e in ex: e.lineno = t.lineno; ...;
e.expanded_from.append(t.value)` applied to each produced token. -/
def stampToken (mname : String) (ln : Nat) (e : Token) : Token :=
  { e with lineno := ln, expanded_from := e.expanded_from ++ [mname] }

/-- `for i in macro.var_comma_patch: rep[i] = None`. -/
def commaPatch : List Nat → List (Option Token) → List (Option Token)
  | [], rep => rep
  | i :: is, rep => commaPatch is (rep.set i none)

mutual

/-- `Preprocessor.expand_macros` (lines 514-593): macro expansion over a
token list, returning the expanded list and the diagnostics emitted.  The
unbounded rescanning `while` loop is driven by `fuel`
(`Exc.fuelExhausted` when it runs out). -/
def expand_macros (macros : Macros) : Nat → List Token → List String →
    Except Exc (List Token × List Diagnostic)
  | 0, _, _ => .error .fuelExhausted
  | fuel + 1, tokens, expanding_from =>
    emLoop macros fuel (tokens.map initExpandedFrom) 0 expanding_from []
termination_by structural fuel => fuel

/-- The `while i < len(tokens)` loop of `expand_macros`. -/
def emLoop (macros : Macros) : Nat → List Token → Nat → List String → List Diagnostic →
    Except Exc (List Token × List Diagnostic)
  | 0, _, _, _, _ => .error .fuelExhausted
  | fuel' + 1, tokens, i, expanding_from, diags =>
    if i < tokens.length then
      let t := tokens.getD i default
      let fallThrough : Except Exc (List Token × List Diagnostic) :=
        -- the `elif t.value == '__LINE__'` arm followed by `i += 1`
        if t.type = "CPP_ID" ∧ t.value = "__LINE__" then
          emLoop macros fuel'
            (tokens.set i { t with type := "CPP_INTEGER", value := toString t.lineno })
            (i + 1) expanding_from diags
        else
          emLoop macros fuel' tokens (i + 1) expanding_from diags
      if t.type = "CPP_ID" then
        match lookupMacro macros t.value with
        | none => fallThrough
        | some m =>
          if t.value ∈ t.expanded_from ∨ t.value ∈ expanding_from then
            fallThrough
          else
            match m.arglist with
            | none =>
              -- a simple (object-like) macro
              let rep := m.value.map copyToken
              match expand_macros macros fuel' rep (expanding_from ++ [t.value]) with
              | .error e => .error e
              | .ok (ex0, d1) =>
                let ex := ex0.map (stampToken t.value t.lineno)
                emLoop macros fuel' (tokens.take i ++ ex ++ tokens.drop (i + 1)) i
                  expanding_from (diags ++ d1)
            | some arglist =>
              -- a macro with arguments
              let j := skipWS tokens (i + 1)
              if j = tokens.length ∨ (tokens.getD j default).value ≠ "(" then
                emLoop macros fuel' tokens j expanding_from diags
              else
                match collect_args (tokens.drop j) true with
                | .error e => .error e
                | .ok ((tokcount, args, positions), d0) =>
                  if tokcount = 0 then
                    -- unclosed parameter list: `break`
                    .ok (tokens, diags ++ d0)
                  else if ¬ m.variadic ∧ (args ≠ [[]] ∨ arglist.length > 1) ∧
                      args.length ≠ arglist.length then
                    emLoop macros fuel' tokens (j + tokcount) expanding_from
                      (diags ++ d0 ++
                        [⟨t.source, t.lineno, .macroRequiresArgs t.value arglist.length args.length⟩])
                  else if m.variadic ∧ args.length < arglist.length - 1 then
                    emLoop macros fuel' tokens (j + tokcount) expanding_from
                      (diags ++ d0 ++
                        [⟨t.source, t.lineno, .macroAtLeastArgs t.value (arglist.length - 1)⟩])
                  else
                    let argsFixed :=
                      if m.variadic then
                        if args.length = arglist.length - 1 then args ++ [[]]
                        else
                          let p := positions.getD (arglist.length - 1) 0
                          (args.set (arglist.length - 1)
                            ((tokens.drop (j + p)).take ((j + tokcount - 1) - (j + p)))).take
                            arglist.length
                      else args ++ List.replicate (arglist.length - args.length) []
                    match macro_expand_args macros fuel' m argsFixed with
                    | .error e => .error e
                    | .ok (rep, _argsAfter, d1) =>
                      match expand_macros macros fuel' rep (expanding_from ++ [t.value]) with
                      | .error e => .error e
                      | .ok (ex0, d2) =>
                        let ex := ex0.map (stampToken t.value t.lineno)
                        emLoop macros fuel'
                          (tokens.take i ++ ex ++ tokens.drop (j + tokcount)) i
                          expanding_from (diags ++ d0 ++ d1 ++ d2)
      else
        emLoop macros fuel' tokens (i + 1) expanding_from diags
    else
      .ok (tokens, diags)
termination_by structural fuel => fuel

/-- `Preprocessor.macro_expand_args` (lines 453-505).  Returns the produced
replacement, the argument lists as they stand after the call (the Python
code mutates them in place: stringification rewrites whitespace token values
and the `'e'` patches overwrite `args[argnum]` with its expansion), and the
diagnostics emitted. -/
def macro_expand_args (macros : Macros) : Nat → Macro → List (List Token) →
    Except Exc (List Token × List (List Token) × List Diagnostic)
  | 0, _, _ => .error .fuelExhausted
  | fuel + 1, m, args =>
  let rep0 : List (Option Token) := m.value.map (fun t => some (copyToken t))
  let sp := strPatchLoop m.str_patch rep0 args []
  let rep1 := sp.1
  let args1 := sp.2.1
  -- variadic comma patch; `args[-1]` raises IndexError on an empty args list
  match
    (if m.variadic then
      match args1.getLast? with
      | none => Except.error Exc.indexError
      | some a => Except.ok (a.isEmpty)
    else Except.ok false : Except Exc Bool) with
  | .error e => .error e
  | .ok comma_patch =>
    let rep2 := if comma_patch then commaPatch m.var_comma_patch rep1 else rep1
    match applyPatches macros fuel m.patch rep2 args1 [] [] with
    | .error e => .error e
    | .ok (rep3, args2, d1) =>
      -- `if comma_patch: rep = [_i for _i in rep if _i]`; without the flag no
      -- slot is `none`, so extraction is total
      let repFinal :=
        if comma_patch then rep3.filterMap id
        else rep3.map (fun o => o.getD default)
      .ok (repFinal, args2, d1)
termination_by structural fuel => fuel

/-- The `macro.patch` loop of `macro_expand_args`: `'c'` splices the raw
argument, `'e'` splices the macro-expanded argument, memoised in `expanded`
and written back into `args` (the in-place `expand_macros(args[argnum])`). -/
def applyPatches (macros : Macros) :
    Nat → List (Char × Nat × Nat) → List (Option Token) → List (List Token) →
    List (Nat × List Token) → List Diagnostic →
    Except Exc (List (Option Token) × List (List Token) × List Diagnostic)
  | 0, _, _, _, _, _ => .error .fuelExhausted
  | _ + 1, [], rep, args, _, diags => .ok (rep, args, diags)
  | fuel + 1, (ptype, argnum, i) :: ps, rep, args, expanded, diags =>
    if ptype = 'c' then
      applyPatches macros fuel ps
        (rep.take i ++ (args.getD argnum []).map some ++ rep.drop (i + 1)) args expanded diags
    else if ptype = 'e' then
      match expanded.find? (fun p => p.1 = argnum) with
      | some pr =>
        applyPatches macros fuel ps
          (rep.take i ++ pr.2.map some ++ rep.drop (i + 1)) args expanded diags
      | none =>
        match expand_macros macros fuel (args.getD argnum []) [] with
        | .error e => .error e
        | .ok (ex, d1) =>
          applyPatches macros fuel ps
            (rep.take i ++ ex.map some ++ rep.drop (i + 1)) (args.set argnum ex)
            (expanded ++ [(argnum, ex)]) (diags ++ d1)
    else
      applyPatches macros fuel ps rep args expanded diags
termination_by structural fuel => fuel

end

/-- `j = i - 1; while j >= 0 and macro.value[j].type in self.t_WS: j -= 1`:
the nearest non-whitespace index strictly before `i`, if any. -/
def backSkipWS (value : List Token) : Nat → Option Nat
  | 0 => none
  | j + 1 => if isWS (value.getD j default) then backSkipWS value j else some j

/-- Stable insertion for `macro.patch.sort(key=lambda x: x[2], reverse=True)`:
an element is placed before the first entry with a strictly smaller
position, so entries with equal positions keep their original order. -/
def insertPatchDesc (p : Char × Nat × Nat) : List (Char × Nat × Nat) → List (Char × Nat × Nat)
  | [] => [p]
  | q :: qs => if q.2.2 < p.2.2 then p :: q :: qs else q :: insertPatchDesc p qs

/-- `macro.patch.sort(key=lambda x: x[2], reverse=True)`. -/
def sortPatchDesc (ps : List (Char × Nat × Nat)) : List (Char × Nat × Nat) :=
  ps.foldl (fun acc p => insertPatchDesc p acc) []

/-- The scanning loop of `macro_prescan` (lines 409-442), accumulating the
three patch lists while rewriting the replacement list in place. -/
def prescanLoop (arglist : List String) (variadic : Bool) (vararg : String) :
    Nat → List Token → Nat → List (Char × Nat × Nat) → List (Nat × Nat) → List Nat →
    Except Exc (List Token × List (Char × Nat × Nat) × List (Nat × Nat) × List Nat)
  | 0, _, _, _, _, _ => .error .fuelExhausted
  | fuel + 1, value, i, patch, str_patch, vcp =>
    if i < value.length then
      let t := value.getD i default
      if t.type = "CPP_ID" ∧ t.value ∈ arglist then
        let argnum := arglist.indexOf t.value
        let hashAt : Option Nat :=
          match backSkipWS value i with
          | some j => if (value.getD j default).value = "#" then some j else none
          | none => none
        match hashAt with
        | some j =>
          -- stringization: retype the parameter token, delete positions j..i-1
          let v1 := value.set i { t with type := "CPP_STRING" }
          let v2 := v1.take j ++ v1.drop i
          prescanLoop arglist variadic vararg fuel v2 j patch (str_patch ++ [(argnum, j)]) vcp
        | none =>
          if i > 0 ∧ (value.getD (i - 1) default).value = "##" then
            prescanLoop arglist variadic vararg fuel (value.eraseIdx (i - 1)) i
              (patch ++ [('c', argnum, i - 1)]) str_patch vcp
          else if i + 1 < value.length ∧ (value.getD (i + 1) default).value = "##" then
            prescanLoop arglist variadic vararg fuel value (i + 1)
              (patch ++ [('c', argnum, i)]) str_patch vcp
          else
            prescanLoop arglist variadic vararg fuel value (i + 1)
              (patch ++ [('e', argnum, i)]) str_patch vcp
      else if t.value = "##" then
        let vcp' :=
          if variadic ∧ i > 0 ∧ (value.getD (i - 1) default).value = "," ∧
              i + 1 < value.length ∧ (value.getD (i + 1) default).type = "CPP_ID" ∧
              (value.getD (i + 1) default).value = vararg then
            vcp ++ [i - 1]
          else vcp
        prescanLoop arglist variadic vararg fuel value (i + 1) patch str_patch vcp'
      else
        prescanLoop arglist variadic vararg fuel value (i + 1) patch str_patch vcp
    else
      .ok (value, patch, str_patch, vcp)

/-- `Preprocessor.macro_prescan` (lines 405-443): computes the patch lists of
a freshly defined function-like macro and strips the `#`/`##` markers from
its replacement list. -/
def macro_prescan (m : Macro) (fuel : Nat) : Except Exc Macro :=
  match prescanLoop (m.arglist.getD []) m.variadic m.vararg fuel m.value 0 [] [] [] with
  | .error e => .error e
  | .ok (value, patch, str_patch, vcp) =>
    .ok { m with value := value, patch := sortPatchDesc patch,
                 str_patch := str_patch, var_comma_patch := vcp }

/-- The `#define` replacement-list cleanup (lines 891-899): whitespace
adjacent to `##` is removed. -/
def hashStripLoop : Nat → List Token → Nat → Except Exc (List Token)
  | 0, _, _ => .error .fuelExhausted
  | fuel + 1, mvalue, i =>
    if i < mvalue.length then
      if i + 1 < mvalue.length then
        if isWS (mvalue.getD i default) ∧ (mvalue.getD (i + 1) default).value = "##" then
          hashStripLoop fuel (mvalue.eraseIdx i) i
        else if (mvalue.getD i default).value = "##" ∧ isWS (mvalue.getD (i + 1) default) then
          hashStripLoop fuel (mvalue.eraseIdx (i + 1)) (i + 1)
        else
          hashStripLoop fuel mvalue (i + 1)
      else
        hashStripLoop fuel mvalue (i + 1)
    else
      .ok mvalue

/-- The parameter-scanning `for a in args` loop of `define` (lines 863-888).
Returns the rewritten argument lists, the variadic flag, the diagnostics,
and whether the loop completed without `break` (the `for`/`else` clause that
actually stores the macro).  `Exc.attrError` models the `AttributeError`
raised by `a.source` on the invalid-argument path; `Exc.indexError` the
`a[0]` of an empty non-unique argument. -/
def defArgsLoop (nameTok : Token) (total : Nat) :
    List (List Token) → Bool → List (List Token) → List Diagnostic →
    Except Exc (List (List Token) × Bool × List Diagnostic × Bool)
  | [], variadic, acc, diags => .ok (acc, variadic, diags, true)
  | a :: rest, variadic, acc, diags =>
    if variadic then
      .ok (acc ++ a :: rest, variadic,
        diags ++ [⟨nameTok.source, nameTok.lineno, .noMoreArgsAfterVariadic⟩], false)
    else
      let astr := String.join (a.map (fun t => t.value))
      if astr = "..." then
        match a with
        | a0 :: _ =>
          defArgsLoop nameTok total rest true
            (acc ++ [[{ a0 with type := "CPP_ID", value := "__VA_ARGS__" }]]) diags
        | [] => .error .indexError
      else if String.mk ((astr.data.reverse.take 3).reverse) = "..." ∧
          (a.headD default).type = "CPP_ID" then
        let a0 := a.headD default
        let a0' :=
          if String.mk ((a0.value.data.reverse.take 3).reverse) = "..." then
            { a0 with value := String.mk (a0.value.data.dropLast.dropLast.dropLast) }
          else a0
        defArgsLoop nameTok total rest true (acc ++ [[a0']]) diags
      else if a = [] ∧ total = 1 then
        defArgsLoop nameTok total rest variadic (acc ++ [a]) diags
      else if a.length > 1 then
        .error .attrError
      else
        match a with
        | [] => .error .indexError
        | a0 :: _ =>
          if a0.type ≠ "CPP_ID" then .error .attrError
          else defArgsLoop nameTok total rest variadic (acc ++ [a]) diags

/-- `[x[0].value for x in args] if args != [[]] else []`. -/
def paramNames (args : List (List Token)) : Except Exc (List String) :=
  if args = [[]] then .ok []
  else args.mapM (fun a => match a with
    | [] => Except.error Exc.indexError
    | x :: _ => Except.ok x.value)

/-- `Preprocessor.define` (lines 841-908) on an already-tokenized definition
line.  Returns the updated macro table and the diagnostics emitted;
exceptions raised inside (`except: raise` re-raises them) surface as
`Except.error`. -/
def define (macros : Macros) (fuel : Nat) (linetok : List Token) :
    Except Exc (Macros × List Diagnostic) :=
  match linetok with
  | [] => .error .indexError
  | name :: rest =>
    match rest with
    | [] =>
      .ok (storeMacro macros name.value { name := name.value, value := [] }, [])
    | mtype :: _ =>
      if isWS mtype then
        -- a normal (object-like) macro
        .ok (storeMacro macros name.value
          { name := name.value, value := tokenstrip (linetok.drop 2) }, [])
      else if mtype.value = "(" then
        match collect_args (linetok.drop 1) false with
        | .error e => .error e
        | .ok ((tokcount, args, _positions), d0) =>
          match defArgsLoop name args.length args false [] [] with
          | .error e => .error e
          | .ok (args', variadic, d1, completed) =>
            if completed then
              match hashStripLoop fuel (tokenstrip (linetok.drop (1 + tokcount))) 0 with
              | .error e => .error e
              | .ok mvalue =>
                match paramNames args' with
                | .error e => .error e
                | .ok ps =>
                  match (if variadic then
                      match ps.getLast? with
                      | none => Except.error Exc.indexError
                      | some v => Except.ok v
                    else Except.ok "" : Except Exc String) with
                  | .error e => .error e
                  | .ok va =>
                    match macro_prescan
                        { name := name.value, value := mvalue, arglist := some ps,
                          variadic := variadic, vararg := va } fuel with
                    | .error e => .error e
                    | .ok m => .ok (storeMacro macros name.value m, d0 ++ d1)
            else
              .ok (macros, d0 ++ d1)
      else
        .ok (macros, [⟨name.source, name.lineno, .badMacroDefinition⟩])

/-! ## Constant-expression evaluation

`evalexpr` hands the rewritten expression text to the host `eval`.  The
host evaluator is modelled by `pyEval`: a lexer and recursive-descent
parser/evaluator for the Python expression subset these strings draw from
(unbounded integers, `and`/`or`/`not`, chained comparisons, bitwise,
shift, additive, multiplicative and unary operators, parentheses).
`none` models any evaluation failure (`SyntaxError`, `ZeroDivisionError`,
negative shift counts); `True`/`False` are carried as `1`/`0`, which is how
they behave in the enclosing arithmetic.  Division and modulus use floored
semantics (the Python 2 integer division this module still supports). -/

/-- Tokens of the modelled host expression language. -/
inductive PyTok where
  | int (n : Int)
  | name (s : String)
  | sym (s : String)
deriving Repr, DecidableEq

/-- Hexadecimal digit value. -/
def hexVal (c : Char) : Option Nat :=
  if c.isDigit then some (c.toNat - '0'.toNat)
  else if 'a' ≤ c ∧ c ≤ 'f' then some (c.toNat - 'a'.toNat + 10)
  else if 'A' ≤ c ∧ c ≤ 'F' then some (c.toNat - 'A'.toNat + 10)
  else none

/-- Lexer for the modelled host expression language (fuel-driven; each step
consumes at least one character, so `length + 1` fuel always suffices). -/
def pyLex : Nat → List Char → Option (List PyTok)
  | 0, _ => none
  | _, [] => some []
  | fuel + 1, c :: cs =>
    if c = ' ' then pyLex fuel cs
    else if c = '0' ∧ (cs.headD ' ' = 'x' ∨ cs.headD ' ' = 'X') then
      let hexDigits := (cs.drop 1).takeWhile (fun d => (hexVal d).isSome)
      if hexDigits.isEmpty then none
      else
        let v := hexDigits.foldl (fun a d => a * 16 + ((hexVal d).getD 0)) (0 : Nat)
        (pyLex fuel ((cs.drop 1).drop hexDigits.length)).map
          (fun ts => .int (Int.ofNat v) :: ts)
    else if c.isDigit then
      let digits := (c :: cs).takeWhile Char.isDigit
      let v := digits.foldl (fun a d => a * 10 + (d.toNat - '0'.toNat)) (0 : Nat)
      (pyLex fuel ((c :: cs).drop digits.length)).map (fun ts => .int (Int.ofNat v) :: ts)
    else if c.isAlpha ∨ c = '_' then
      let letters := (c :: cs).takeWhile (fun d => d.isAlpha ∨ d = '_')
      (pyLex fuel ((c :: cs).drop letters.length)).map
        (fun ts => .name (String.mk letters) :: ts)
    else
      let two := String.mk [c, cs.headD ' ']
      if two ∈ ["<=", ">=", "==", "!=", "<<", ">>", "//", "**"] then
        (pyLex fuel (cs.drop 1)).map (fun ts => .sym two :: ts)
      else if c ∈ ['+', '-', '*', '/', '%', '<', '>', '|', '&', '^', '~', '(', ')', '='] then
        (pyLex fuel cs).map (fun ts => .sym (String.mk [c]) :: ts)
      else none

/-- Comparison-operator dispatch for chained comparisons. -/
def cmpOp : List PyTok → Option (String × List PyTok)
  | .sym s :: ts =>
    if s ∈ ["<", "<=", ">", ">=", "==", "!="] then some (s, ts) else none
  | _ => none

/-- Evaluate one comparison. -/
def cmpEval (op : String) (a b : Int) : Bool :=
  if op = "<" then a < b
  else if op = "<=" then a ≤ b
  else if op = ">" then a > b
  else if op = ">=" then a ≥ b
  else if op = "==" then a = b
  else a ≠ b

mutual

/-- `or` level (lowest precedence). -/
def pyOr : Nat → List PyTok → Option (Int × List PyTok)
  | 0, _ => none
  | f + 1, ts =>
    match pyAnd f ts with
    | none => none
    | some (v, rest) => pyOrLoop f v rest

def pyOrLoop : Nat → Int → List PyTok → Option (Int × List PyTok)
  | 0, _, _ => none
  | f + 1, v, ts =>
    match ts with
    | .name "or" :: ts' =>
      match pyAnd f ts' with
      | none => none
      | some (w, rest) => pyOrLoop f (if v ≠ 0 then v else w) rest
    | _ => some (v, ts)

/-- `and` level. -/
def pyAnd : Nat → List PyTok → Option (Int × List PyTok)
  | 0, _ => none
  | f + 1, ts =>
    match pyNot f ts with
    | none => none
    | some (v, rest) => pyAndLoop f v rest

def pyAndLoop : Nat → Int → List PyTok → Option (Int × List PyTok)
  | 0, _, _ => none
  | f + 1, v, ts =>
    match ts with
    | .name "and" :: ts' =>
      match pyNot f ts' with
      | none => none
      | some (w, rest) => pyAndLoop f (if v = 0 then v else w) rest
    | _ => some (v, ts)

/-- `not` level. -/
def pyNot : Nat → List PyTok → Option (Int × List PyTok)
  | 0, _ => none
  | f + 1, ts =>
    match ts with
    | .name "not" :: ts' =>
      match pyNot f ts' with
      | none => none
      | some (v, rest) => some (if v = 0 then 1 else 0, rest)
    | _ => pyCmp f ts

/-- Comparison level, with Python comparison chaining
(`a < b < c` is `(a < b) and (b < c)`). -/
def pyCmp : Nat → List PyTok → Option (Int × List PyTok)
  | 0, _ => none
  | f + 1, ts =>
    match pyBor f ts with
    | none => none
    | some (v, rest) =>
      match cmpOp rest with
      | none => some (v, rest)
      | some _ => pyCmpLoop f true v rest

def pyCmpLoop : Nat → Bool → Int → List PyTok → Option (Int × List PyTok)
  | 0, _, _, _ => none
  | f + 1, acc, prev, ts =>
    match cmpOp ts with
    | some (op, ts') =>
      match pyBor f ts' with
      | none => none
      | some (w, rest) => pyCmpLoop f (acc && cmpEval op prev w) w rest
    | none => some (if acc then 1 else 0, ts)

/-- Bitwise-or level. -/
def pyBor : Nat → List PyTok → Option (Int × List PyTok)
  | 0, _ => none
  | f + 1, ts =>
    match pyBxor f ts with
    | none => none
    | some (v, rest) => pyBorLoop f v rest

def pyBorLoop : Nat → Int → List PyTok → Option (Int × List PyTok)
  | 0, _, _ => none
  | f + 1, v, ts =>
    match ts with
    | .sym "|" :: ts' =>
      match pyBxor f ts' with
      | none => none
      | some (w, rest) => pyBorLoop f (Int.lor v w) rest
    | _ => some (v, ts)

/-- Bitwise-xor level. -/
def pyBxor : Nat → List PyTok → Option (Int × List PyTok)
  | 0, _ => none
  | f + 1, ts =>
    match pyBand f ts with
    | none => none
    | some (v, rest) => pyBxorLoop f v rest

def pyBxorLoop : Nat → Int → List PyTok → Option (Int × List PyTok)
  | 0, _, _ => none
  | f + 1, v, ts =>
    match ts with
    | .sym "^" :: ts' =>
      match pyBand f ts' with
      | none => none
      | some (w, rest) => pyBxorLoop f (Int.xor v w) rest
    | _ => some (v, ts)

/-- Bitwise-and level. -/
def pyBand : Nat → List PyTok → Option (Int × List PyTok)
  | 0, _ => none
  | f + 1, ts =>
    match pyShift f ts with
    | none => none
    | some (v, rest) => pyBandLoop f v rest

def pyBandLoop : Nat → Int → List PyTok → Option (Int × List PyTok)
  | 0, _, _ => none
  | f + 1, v, ts =>
    match ts with
    | .sym "&" :: ts' =>
      match pyShift f ts' with
      | none => none
      | some (w, rest) => pyBandLoop f (Int.land v w) rest
    | _ => some (v, ts)

/-- Shift level; a negative right operand raises `ValueError`. -/
def pyShift : Nat → List PyTok → Option (Int × List PyTok)
  | 0, _ => none
  | f + 1, ts =>
    match pyAdd f ts with
    | none => none
    | some (v, rest) => pyShiftLoop f v rest

def pyShiftLoop : Nat → Int → List PyTok → Option (Int × List PyTok)
  | 0, _, _ => none
  | f + 1, v, ts =>
    match ts with
    | .sym "<<" :: ts' =>
      match pyAdd f ts' with
      | none => none
      | some (w, rest) =>
        if w < 0 then none else pyShiftLoop f (v * (2 : Int) ^ w.toNat) rest
    | .sym ">>" :: ts' =>
      match pyAdd f ts' with
      | none => none
      | some (w, rest) =>
        if w < 0 then none else pyShiftLoop f (Int.fdiv v ((2 : Int) ^ w.toNat)) rest
    | _ => some (v, ts)

/-- Additive level. -/
def pyAdd : Nat → List PyTok → Option (Int × List PyTok)
  | 0, _ => none
  | f + 1, ts =>
    match pyMul f ts with
    | none => none
    | some (v, rest) => pyAddLoop f v rest

def pyAddLoop : Nat → Int → List PyTok → Option (Int × List PyTok)
  | 0, _, _ => none
  | f + 1, v, ts =>
    match ts with
    | .sym "+" :: ts' =>
      match pyMul f ts' with
      | none => none
      | some (w, rest) => pyAddLoop f (v + w) rest
    | .sym "-" :: ts' =>
      match pyMul f ts' with
      | none => none
      | some (w, rest) => pyAddLoop f (v - w) rest
    | _ => some (v, ts)

/-- Multiplicative level; division by zero raises `ZeroDivisionError`. -/
def pyMul : Nat → List PyTok → Option (Int × List PyTok)
  | 0, _ => none
  | f + 1, ts =>
    match pyUnary f ts with
    | none => none
    | some (v, rest) => pyMulLoop f v rest

def pyMulLoop : Nat → Int → List PyTok → Option (Int × List PyTok)
  | 0, _, _ => none
  | f + 1, v, ts =>
    match ts with
    | .sym "*" :: ts' =>
      match pyUnary f ts' with
      | none => none
      | some (w, rest) => pyMulLoop f (v * w) rest
    | .sym "/" :: ts' =>
      match pyUnary f ts' with
      | none => none
      | some (w, rest) => if w = 0 then none else pyMulLoop f (Int.fdiv v w) rest
    | .sym "//" :: ts' =>
      match pyUnary f ts' with
      | none => none
      | some (w, rest) => if w = 0 then none else pyMulLoop f (Int.fdiv v w) rest
    | .sym "%" :: ts' =>
      match pyUnary f ts' with
      | none => none
      | some (w, rest) => if w = 0 then none else pyMulLoop f (Int.fmod v w) rest
    | _ => some (v, ts)

/-- Unary `+ - ~`. -/
def pyUnary : Nat → List PyTok → Option (Int × List PyTok)
  | 0, _ => none
  | f + 1, ts =>
    match ts with
    | .sym "-" :: ts' => (pyUnary f ts').map (fun p => (-p.1, p.2))
    | .sym "+" :: ts' => pyUnary f ts'
    | .sym "~" :: ts' => (pyUnary f ts').map (fun p => (-p.1 - 1, p.2))
    | _ => pyAtom f ts

/-- Atoms: integer literals and parenthesised expressions. -/
def pyAtom : Nat → List PyTok → Option (Int × List PyTok)
  | 0, _ => none
  | f + 1, ts =>
    match ts with
    | .int n :: rest => some (n, rest)
    | .sym "(" :: ts' =>
      match pyOr f ts' with
      | none => none
      | some (v, rest) =>
        match rest with
        | .sym ")" :: rest' => some (v, rest')
        | _ => none
    | _ => none

end

/-- The host `eval(expr)`: `some` the value, `none` any evaluation failure
(a failure makes `evalexpr` report a diagnostic and yield 0). -/
def pyEval (s : String) : Option Int :=
  match pyLex (s.length + 1) s.data with
  | none => none
  | some ts =>
    match pyOr (12 * (ts.length + 1) + 12) ts with
    | some (v, []) => some v
    | _ => none

/-- The inner `j` scan of the `defined` rewrite in `evalexpr`
(lines 609-627).  `errTok` is `tokens[i]`, named in the malformed
diagnostic. -/
def definedScan (macros : Macros) (errTok : Token) :
    Nat → List Token → Nat → Bool → String → List Diagnostic →
    Except Exc (String × Nat × List Diagnostic)
  | 0, _, _, _, _, _ => .error .fuelExhausted
  | fuel + 1, tokens, j, needparen, result, diags =>
    if j < tokens.length then
      let t := tokens.getD j default
      if isWS t then definedScan macros errTok fuel tokens (j + 1) needparen result diags
      else if t.type = "CPP_ID" then
        let result' := if (lookupMacro macros t.value).isSome then "1L" else "0L"
        if ¬ needparen then .ok (result', j, diags)
        else definedScan macros errTok fuel tokens (j + 1) needparen result' diags
      else if t.value = "(" then
        definedScan macros errTok fuel tokens (j + 1) true result diags
      else if t.value = ")" then .ok (result, j, diags)
      else
        definedScan macros errTok fuel tokens (j + 1) needparen result
          (diags ++ [⟨errTok.source, errTok.lineno, .malformedDefined⟩])
    else .ok (result, j, diags)

/-- The outer `defined`-rewriting loop of `evalexpr` (lines 605-631). -/
def definedLoop (macros : Macros) : Nat → List Token → Nat → List Diagnostic →
    Except Exc (List Token × List Diagnostic)
  | 0, _, _, _ => .error .fuelExhausted
  | fuel + 1, tokens, i, diags =>
    if i < tokens.length then
      let t := tokens.getD i default
      if t.type = "CPP_ID" ∧ t.value = "defined" then
        match definedScan macros t fuel tokens (i + 1) false "0L" [] with
        | .error e => .error e
        | .ok (result, j, d1) =>
          let ts := tokens.set i { t with type := "CPP_INTEGER", value := result }
          definedLoop macros fuel (ts.take (i + 1) ++ ts.drop (j + 1)) (i + 1) (diags ++ d1)
      else definedLoop macros fuel tokens (i + 1) diags
    else .ok (tokens, diags)

/-- `while tokens[i].value[-1] not in "0123456789abcdefABCDEF": drop it`:
integer-suffix stripping.  An integer token always retains at least one
digit, so the loop terminates before the string empties. -/
def stripIntSuffix (s : String) : String :=
  String.mk (((s.data.reverse).dropWhile (fun c => (hexVal c).isNone)).reverse)

/-- The per-token rewrite of `evalexpr` (lines 633-643): leftover
identifiers become integer `0L`; integer tokens lose their suffix. -/
def evalRewrite (t : Token) : Token :=
  if t.type = "CPP_ID" then { t with type := "CPP_INTEGER", value := "0L" }
  else if t.type = "CPP_INTEGER" then { t with value := stripIntSuffix t.value }
  else t

/-- `Preprocessor.evalexpr` (lines 602-654): evaluate a `#if`/`#elif`
token sequence.  Returns the integer result and the diagnostics;
`Exc.indexError` models the `tokens[0]` of the failure branch when the
token list is empty. -/
def evalexpr (macros : Macros) (fuel : Nat) (tokens : List Token) :
    Except Exc (Int × List Diagnostic) :=
  match definedLoop macros fuel tokens 0 [] with
  | .error e => .error e
  | .ok (t1, d1) =>
    match expand_macros macros fuel t1 [] with
    | .error e => .error e
    | .ok (t2, d2) =>
      let t3 := t2.map evalRewrite
      let expr0 := String.join (t3.map (fun t => t.value))
      let expr := strReplace (strReplace (strReplace expr0 "&&" " and ") "||" " or ") "!" " not "
      match pyEval expr with
      | some r => .ok (r, d1 ++ d2)
      | none =>
        match t3 with
        | [] => .error .indexError
        | t0 :: _ => .ok (0, d1 ++ d2 ++ [⟨t0.source, t0.lineno, .couldntEvaluate⟩])

/-! ## The conditional-compilation state machine of `parsegen` -/

/-- The conditional-compilation state carried by `parsegen`: the current
`enable`/`iftrigger` scalars and the `ifstack` of saved
`(enable, iftrigger)` pairs. -/
structure CondState where
  enable : Bool := true
  iftrigger : Bool := false
  ifstack : List (Bool × Bool) := []
deriving Repr, DecidableEq

/-- A conditional directive event.  `ifD`/`elifD` carry the truth value of
`self.evalexpr(args)` (`result` truthiness); `ifdefD`/`ifndefD` carry
`args[0].value in self.macros`.  The expression is only consulted on the
branches where the source evaluates it. -/
inductive CondDir where
  | ifD (r : Bool)
  | ifdefD (mem : Bool)
  | ifndefD (mem : Bool)
  | elifD (r : Bool)
  | elseD
  | endifD
deriving Repr, DecidableEq

/-- One conditional directive step of `parsegen` (lines 719-772).  The
returned `Bool` records whether a misplaced-directive diagnostic was
emitted. -/
def condStep : CondDir → CondState → CondState × Bool
  | .ifdefD mem, s =>
    let s1 := { s with ifstack := (s.enable, s.iftrigger) :: s.ifstack }
    if s1.enable then
      if ¬ mem then ({ s1 with enable := false, iftrigger := false }, false)
      else ({ s1 with iftrigger := true }, false)
    else (s1, false)
  | .ifndefD mem, s =>
    let s1 := { s with ifstack := (s.enable, s.iftrigger) :: s.ifstack }
    if s1.enable then
      if mem then ({ s1 with enable := false, iftrigger := false }, false)
      else ({ s1 with iftrigger := true }, false)
    else (s1, false)
  | .ifD r, s =>
    let s1 := { s with ifstack := (s.enable, s.iftrigger) :: s.ifstack }
    if s1.enable then
      if ¬ r then ({ s1 with enable := false, iftrigger := false }, false)
      else ({ s1 with iftrigger := true }, false)
    else (s1, false)
  | .elifD r, s =>
    match s.ifstack with
    | [] => (s, true)
    | top :: _ =>
      if top.1 then
        if s.enable then ({ s with enable := false }, false)
        else if ¬ s.iftrigger then
          if r then ({ s with enable := true, iftrigger := true }, false)
          else (s, false)
        else (s, false)
      else (s, false)
  | .elseD, s =>
    match s.ifstack with
    | [] => (s, true)
    | top :: _ =>
      if top.1 then
        if s.enable then ({ s with enable := false }, false)
        else if ¬ s.iftrigger then
          ({ s with enable := true, iftrigger := true }, false)
        else (s, false)
      else (s, false)
  | .endifD, s =>
    match s.ifstack with
    | [] => (s, true)
    | top :: rest => ({ enable := top.1, iftrigger := top.2, ifstack := rest }, false)

/-- Run a sequence of conditional directives. -/
def condRun (ds : List CondDir) (s : CondState) : CondState :=
  ds.foldl (fun st d => (condStep d st).1) s

/-- Whether a directive is an `#elif` or `#else` (a sibling branch of the
current frame, neither opening nor closing it). -/
def isElifOrElse : CondDir → Bool
  | .elifD _ => true
  | .elseD => true
  | _ => false

/-! ## Directive handlers with their token arguments (for the crash claims) -/

/-- State observable on the preprocessor object across a directive: the
conditional state together with the diagnostics counter. -/
structure PState where
  enable : Bool := true
  iftrigger : Bool := false
  ifstack : List (Bool × Bool) := []
  return_code : Nat := 0
  diags : List Diagnostic := []
deriving Repr, DecidableEq

/-- Record diagnostics: each one passes through `Preprocessor.error`, which
bumps `return_code`. -/
def applyDiags (s : PState) (ds : List Diagnostic) : PState :=
  { s with return_code := s.return_code + ds.length, diags := s.diags ++ ds }

/-- The `#ifdef` arm of `parsegen` (lines 719-726): the frame is pushed
first; `args[0]` on an empty argument list then raises `IndexError`
(`some Exc.indexError` in the first component), which propagates out of
`parsegen` with `return_code` untouched. -/
def ifdefDirective (macros : Macros) (args : List Token) (s : PState) :
    Option Exc × PState :=
  let s1 := { s with ifstack := (s.enable, s.iftrigger) :: s.ifstack }
  if s1.enable then
    match args with
    | [] => (some .indexError, s1)
    | a0 :: _ =>
      if ¬ (lookupMacro macros a0.value).isSome then
        (none, { s1 with enable := false, iftrigger := false })
      else (none, { s1 with iftrigger := true })
  else (none, s1)

/-- The `#ifndef` arm of `parsegen` (lines 727-734). -/
def ifndefDirective (macros : Macros) (args : List Token) (s : PState) :
    Option Exc × PState :=
  let s1 := { s with ifstack := (s.enable, s.iftrigger) :: s.ifstack }
  if s1.enable then
    match args with
    | [] => (some .indexError, s1)
    | a0 :: _ =>
      if (lookupMacro macros a0.value).isSome then
        (none, { s1 with enable := false, iftrigger := false })
      else (none, { s1 with iftrigger := true })
  else (none, s1)

/-- The `#if` arm of `parsegen` (lines 735-743): the frame is pushed, then
`evalexpr(args)` runs; an exception inside it (`IndexError` from
`tokens[0]` on an empty list) propagates with `return_code` untouched. -/
def ifDirective (macros : Macros) (fuel : Nat) (args : List Token) (s : PState) :
    Option Exc × PState :=
  let s1 := { s with ifstack := (s.enable, s.iftrigger) :: s.ifstack }
  if s1.enable then
    match evalexpr macros fuel args with
    | .error e => (some e, s1)
    | .ok (r, ds) =>
      let s2 := applyDiags s1 ds
      if r = 0 then (none, { s2 with enable := false, iftrigger := false })
      else (none, { s2 with iftrigger := true })
  else (none, s1)

/-! ## The `error` method and its output channel -/

/-- The observable I/O state of the engine: what has been written to the
standard output and standard error channels, and the `return_code`
counter. -/
structure IOState where
  stdoutLines : List String := []
  stderrLines : List String := []
  return_code : Nat := 0
deriving Repr, DecidableEq

/-- The text produced by `"%s:%d %s" % (file, line, msg)` (a `None` source
prints as `"None"`). -/
def errorFormat (file : Option String) (line : Nat) (msg : String) : String :=
  (match file with | some s => s | none => "None") ++ ":" ++ toString line ++ " " ++ msg

/-- `Preprocessor.error` (lines 204-206): `print(...)` writes the formatted
message to the standard output channel (the default `sys.stdout` of plain
`print`), and `return_code` is incremented; the method raises nothing. -/
def error (st : IOState) (file : Option String) (line : Nat) (msg : String) : IOState :=
  { st with stdoutLines := st.stdoutLines ++ [errorFormat file line msg],
            return_code := st.return_code + 1 }

/-- A sequence of `error` calls. -/
def runErrors (st : IOState) (calls : List (Option String × Nat × String)) : IOState :=
  calls.foldl (fun s c => error s c.1 c.2.1 c.2.2) st

/-! ## The include resolver -/

/-- The file system visible to `open`: an association of path names to file
contents (only existence matters to the claims). -/
def FS := List (String × String)

/-- `os.path.join(p, filename)` for the directory entries used here
(`os.path.join("", f) = f`). -/
def pjoin (p f : String) : String :=
  if p = "" then f else p ++ "/" ++ f

/-- The `for p in path:` loop of `include` (lines 818-833): directories are
tried in order; the first successful `open` stops the scan.  Returns the
directories actually tried (in order) and the opened path, if any. -/
def searchLoop (fs : FS) (filename : String) : List String → List String × Option String
  | [] => ([], none)
  | p :: ps =>
    let iname := pjoin p filename
    if (List.find? (fun q => q.1 = iname) fs).isSome then ([p], some iname)
    else
      let r := searchLoop fs filename ps
      (p :: r.1, r.2)

/-- `tokens[0].value[1:-1]`: the file name inside a quoted include. -/
def quotedName (s : String) : String :=
  String.mk ((s.data.drop 1).dropLast)

/-- The scan for the closing `>` of an `#include <...>` (lines 802-806). -/
def gtIndex : List Token → Nat → Option Nat
  | [], _ => none
  | t :: ts, i => if t.value = ">" then some i else gtIndex ts (i + 1)

/-- `Preprocessor.include` (lines 792-833), up to the point the claims
speak about: which directories are tried, in which order, and whether a
diagnostic is emitted.  Returns `(directories tried, opened path, diags)`.
The recursive `parsegen` of the opened file and the `temp_path`
push/pop around it do not affect these observables and are not modelled. -/
def includeResolve (macros : Macros) (fuel : Nat) (fs : FS)
    (path temp_path : List String) (tokens : List Token) :
    Except Exc (List String × Option String × List Diagnostic) :=
  match tokens with
  | [] => .ok ([], none, [])
  | t0 :: _ =>
    match (if t0.value ≠ "<" ∧ t0.type ≠ "CPP_STRING" then
        match expand_macros macros fuel tokens [] with
        | .error e => Except.error e
        | .ok (ts, d) => Except.ok (tokenstrip ts, d)
      else Except.ok (tokens, []) :
      Except Exc (List Token × List Diagnostic)) with
    | .error e => .error e
    | .ok (toks, d0) =>
      match toks with
      | [] => .error .indexError
      | h :: rest =>
        if h.value = "<" then
          match gtIndex rest 1 with
          | none => .ok ([], none, d0 ++ [⟨h.source, h.lineno, .malformedIncludeAngle⟩])
          | some i =>
            let filename := String.join (((toks.take i).drop 1).map (fun t => t.value))
            let r := searchLoop fs filename (path ++ [""] ++ temp_path)
            match r.2 with
            | some _ => .ok (r.1, r.2, d0)
            | none => .ok (r.1, none, d0 ++ [⟨h.source, h.lineno, .couldntFindFile filename⟩])
        else if h.type = "CPP_STRING" then
          let filename := quotedName h.value
          let r := searchLoop fs filename (temp_path ++ [""] ++ path)
          match r.2 with
          | some _ => .ok (r.1, r.2, d0)
          | none => .ok (r.1, none, d0 ++ [⟨h.source, h.lineno, .couldntFindFile filename⟩])
        else
          .ok ([], none, d0 ++ [⟨h.source, h.lineno, .malformedIncludeStmt⟩])

/-- Modelled from the spec (§4.10 search order): a candidate directory
opens the file when `pjoin p filename` exists. -/
def specOpens (fs : FS) (filename p : String) : Bool :=
  (List.find? (fun q => q.1 = pjoin p filename) fs).isSome

/-- Modelled from the spec: the ordered prefix of the candidate list that
is actually tried — every failing entry in order, then the first entry
that opens (the whole list when no entry opens). -/
def specTried (fs : FS) (filename : String) (cands : List String) : List String :=
  cands.takeWhile (fun p => ! specOpens fs filename p) ++
    (cands.dropWhile (fun p => ! specOpens fs filename p)).take 1

/-- Modelled from the spec: the file opened by the first successful
candidate, if any. -/
def specFound (fs : FS) (filename : String) (cands : List String) : Option String :=
  ((cands.dropWhile (fun p => ! specOpens fs filename p)).head?).map
    (fun p => pjoin p filename)

/-! ## The writer -/

/-- First character of a token value (`tok.value[0]`). -/
def strHead (s : String) : Option Char :=
  s.data.head?

/-- `value.count('\n')`. -/
def countNl (s : String) : Nat :=
  s.data.count '\n'

/-- The line-accumulation loop of `write` (lines 961-970): take tokens up
to and including the first whose value starts with a newline.  Returns the
line, the remaining stream, and the `all_ws` flag (the terminating token is
appended before the flag update, exactly as in the source). -/
def accLine : List Token → List Token × List Token × Bool
  | [] => ([], [], true)
  | tok :: rest =>
    if strHead tok.value = some '\n' then ([tok], rest, true)
    else
      let r := accLine rest
      (tok :: r.1, r.2.1, r.2.2 && isWS tok)

/-- The right-to-left whitespace-collapse loop of `write` (lines 990-1005).
`k` counts down (`n = k - 1`); `fw` is `first_ws`.  A run of whitespace
tokens between two non-whitespace tokens is replaced by its last token,
whose value collapses to a single space when it starts with one; the
leftmost (indent) run is left untouched.  `tok.type in self.t_SPACE` is
substring membership in the string `"CPP_WS"`, which on the realisable
token types coincides with `isWS`. -/
def wcLoop : List Token → Nat → Option Nat → List Token
  | toks, 0, _ => toks
  | toks, k + 1, fw =>
    let n := k
    let tok := toks.getD n default
    match fw with
    | none =>
      if isWS tok ∨ tok.value.length = 0 then wcLoop toks k (some n)
      else wcLoop toks k none
    | some f =>
      if ¬ isWS tok ∧ tok.value.length > 0 then
        let kept := toks.getD f default
        let kept' := if strHead kept.value = some ' ' then { kept with value := " " } else kept
        wcLoop (toks.take (n + 1) ++ [kept'] ++ toks.drop (f + 1)) k none
      else wcLoop toks k fw

/-- Whitespace collapsing over a whole line. -/
def wsCollapse (toks : List Token) : List Token :=
  wcLoop toks toks.length none

/-- The main loop of `Preprocessor.write` (lines 951-1015), producing the
list of strings passed to `oh.write`.  `lastsource` is the source tag of
the previous non-blank line, `blankacc`/`blanklines` the blank-run buffer
and its newline count. -/
def writeLoop : Nat → List Token → Option String → List (List Token) → Nat → List String
  | 0, _, _, _, _ => []
  | fuel + 1, stream, lastsource, blankacc, blanklines =>
    match accLine stream with
    | ([], _, _) => []
    | (tok0 :: toksRest, rest, all_ws) =>
      let toks0 := tok0 :: toksRest
      if all_ws then
        let toks := if toks0.length > 1 then [toks0.getLastD default] else toks0
        writeLoop fuel rest lastsource (blankacc ++ [toks])
          (blanklines + countNl (toks.headD default).value)
      else
        let e0 : Bool := blanklines > 6
        let dec :=
          match tok0.source with
          | none => (e0, lastsource)
          | some src =>
            match lastsource with
            | none => (e0, some src)
            | some ls => if ls ≠ src then (true, some src) else (e0, some src)
        let toks := wsCollapse toks0
        let out :=
          if dec.1 then
            ["# " ++ toString ((toks.headD default).lineno - 1) ++
              (match dec.2 with | none => "" | some ls => " \"" ++ ls ++ "\"") ++ "\n"]
          else if blanklines > 0 then
            (blankacc.map (fun line => line.map (fun t => t.value))).flatten
          else []
        out ++ toks.map (fun t => t.value) ++ writeLoop fuel rest dec.2 [] 0

/-- `Preprocessor.write` on a finished token stream (the tokens `token()`
would deliver, with the default empty `ignore` set). -/
def write (stream : List Token) : List String :=
  writeLoop (stream.length + 1) stream none [] 0

/-! ## Concrete fixtures shared by the theorems -/

/-- An identifier token as `group_lines` would produce it. -/
def idTok (v : String) (ln : Nat) : Token := ⟨"CPP_ID", v, ln, some "test.c", []⟩

/-- A punctuation token (the PLY `t_error` path types it by its spelling). -/
def litTok (v : String) (ln : Nat) : Token := ⟨v, v, ln, some "test.c", []⟩

/-- An integer token. -/
def intTok (v : String) (ln : Nat) : Token := ⟨"CPP_INTEGER", v, ln, some "test.c", []⟩

/-- A string token. -/
def strTok (v : String) (ln : Nat) : Token := ⟨"CPP_STRING", v, ln, some "test.c", []⟩

/-- A single-space whitespace token. -/
def wsTok (ln : Nat) : Token := ⟨"CPP_WS", " ", ln, some "test.c", []⟩

/-- A `##` token. -/
def dpTok (ln : Nat) : Token := ⟨"CPP_DPOUND", "##", ln, some "test.c", []⟩

/-- The concatenated spellings of a token list. -/
def tokvals (ts : List Token) : String :=
  String.join (ts.map (fun t => t.value))

/-- The definition line of `#define X X+1` as `define` receives it. -/
def c1DefLine : List Token :=
  [idTok "X" 1, wsTok 1, idTok "X" 1, litTok "+" 1, intTok "1" 1]

/-- The macro table after `#define X X+1`. -/
def c1Macros : Macros :=
  match define [] 50 c1DefLine with
  | .ok p => p.1
  | .error _ => []

/-- C1.  An object-like macro occurrence outside its own expansion chain is
replaced by its (recursively expanded) replacement list, and no occurrence
whose `expanded_from` list or whose expanding set already contains the
macro is expanded.  Concretely, after `#define X X+1`, the line `X` expands
to the three tokens `X`, `+`, `1` (spelling `X+1`), each stamped with
`expanded_from = ["X"]`; the inner `X` is not re-expanded, and the
expansion completes within finite fuel, i.e. the rescanning loop
terminates.  The general conjunct: any single identifier token whose own
`expanded_from` or the expanding set contains its spelling is returned
unchanged by `expand_macros`, for every macro table. -/
theorem C1_self_reference_expansion :
    (expand_macros c1Macros 20 [idTok "X" 2] [] =
      Except.ok ([⟨"CPP_ID", "X", 2, some "test.c", ["X"]⟩,
                  ⟨"+", "+", 2, some "test.c", ["X"]⟩,
                  ⟨"CPP_INTEGER", "1", 2, some "test.c", ["X"]⟩], [])) ∧
    ((expand_macros c1Macros 20 [idTok "X" 2] []).map (fun r => tokvals r.1) =
      Except.ok "X+1") ∧
    (∀ (macros : Macros) (fuel : Nat) (t : Token) (ef : List String),
      t.value ∈ t.expanded_from ∨ t.value ∈ ef → t.value ≠ "__LINE__" →
      expand_macros macros (fuel + 3) [t] ef = Except.ok ([t], [])) := by
  refine ⟨by decide, by decide, ?_⟩
  intro macros fuel t ef h hl
  unfold expand_macros
  simp only [List.map_cons, List.map_nil, initExpandedFrom]
  unfold emLoop
  by_cases hid : t.type = "CPP_ID"
  · cases hm : lookupMacro macros t.value with
    | none => simp [hid, hl, hm, emLoop]
    | some m => simp [hid, hl, hm, h, emLoop]
  · simp [hid, emLoop]

/-- Witness for `C1_self_reference_expansion`: a token whose
`expanded_from` already holds its own spelling survives unchanged. -/
theorem C1_self_reference_expansion_witness :
    expand_macros [] 3 [⟨"CPP_ID", "Y", 1, none, ["Y"]⟩] ["Z"] =
      Except.ok ([⟨"CPP_ID", "Y", 1, none, ["Y"]⟩], []) :=
  C1_self_reference_expansion.2.2 [] 0 ⟨"CPP_ID", "Y", 1, none, ["Y"]⟩ ["Z"]
    (Or.inl (by decide)) (by decide)

/-- The `#if` argument tokens of `1 != 2`. -/
def c2NeLine : List Token :=
  [intTok "1" 1, wsTok 1, litTok "!" 1, litTok "=" 1, wsTok 1, intTok "2" 1]

/-- The `#if` argument tokens of `1 == 2`. -/
def c2EqLine : List Token :=
  [intTok "1" 1, wsTok 1, litTok "=" 1, litTok "=" 1, wsTok 1, intTok "2" 1]

/-- The `#if` argument tokens of `1 < 2`. -/
def c2LtLine : List Token :=
  [intTok "1" 1, wsTok 1, litTok "<" 1, wsTok 1, intTok "2" 1]

/-- C2.  The textual rewrite honours `==` and `<` (first two conjuncts),
but it mangles `!=`: the blanket `!`-to-` not ` substitution turns the
expression text `1 != 2` into `1  not = 2`, which no longer parses, so
`evalexpr` on `1 != 2` takes the failure branch — one `Couldn't evaluate
expression` diagnostic and result `0` — instead of producing the C truth
value `1`.  This contradicts the claim (and the spec sentence) that `!=`
is honoured correctly after the rewrite. -/
theorem C2_neq_mangled_by_not_rewrite :
    (evalexpr [] 50 c2EqLine = Except.ok (0, [])) ∧
    (evalexpr [] 50 c2LtLine = Except.ok (1, [])) ∧
    (evalexpr [] 50 c2NeLine =
      Except.ok (0, [⟨some "test.c", 1, .couldntEvaluate⟩])) ∧
    (strReplace (strReplace (strReplace "1 != 2" "&&" " and ") "||" " or ") "!" " not " =
      "1  not = 2") := by
  decide

/-- C3, counterexample.  A diagnostic is emitted (the counter becomes 1 and
the formatted message appears), yet nothing is written to the standard
error channel: `error` prints through plain `print`, i.e. to standard
output. -/
theorem C3_stderr_counterexample :
    (error ⟨[], [], 0⟩ (some "test.c") 3 "Malformed").return_code = 1 ∧
    (error ⟨[], [], 0⟩ (some "test.c") 3 "Malformed").stderrLines = [] ∧
    (error ⟨[], [], 0⟩ (some "test.c") 3 "Malformed").stdoutLines = ["test.c:3 Malformed"] := by
  decide

/-- The shape of any sequence of `error` calls: the counter grows by the
number of calls, the formatted messages are appended to standard output in
order, and standard error is untouched. -/
theorem runErrors_shape (calls : List (Option String × Nat × String)) (st : IOState) :
    (runErrors st calls).return_code = st.return_code + calls.length ∧
    (runErrors st calls).stdoutLines =
      st.stdoutLines ++ calls.map (fun c => errorFormat c.1 c.2.1 c.2.2) ∧
    (runErrors st calls).stderrLines = st.stderrLines := by
  induction calls generalizing st with
  | nil => simp [runErrors]
  | cons c cs ih =>
    have h := ih (error st c.1 c.2.1 c.2.2)
    refine ⟨?_, ?_, ?_⟩
    · simpa [runErrors, error, Nat.add_assoc, Nat.add_comm 1 cs.length] using h.1
    · simpa [runErrors, error] using h.2.1
    · simpa [runErrors, error] using h.2.2

/-- C3, amended.  Every diagnostic is written in the exact form
`"<source>:<line> <message>"` to the standard *output* channel (not the
standard error channel, which is left untouched), and `return_code` is
incremented by one per diagnostic, so along any sequence of diagnostics it
is monotonically increasing and equals the number emitted so far; the
`error` routine itself raises nothing and control returns to its caller. -/
theorem C3_error_output_and_count (st : IOState) (file : Option String) (line : Nat)
    (msg : String) (calls : List (Option String × Nat × String)) :
    (error st file line msg =
      ⟨st.stdoutLines ++ [(match file with | some s => s | none => "None") ++ ":" ++
        toString line ++ " " ++ msg], st.stderrLines, st.return_code + 1⟩) ∧
    ((runErrors st calls).return_code = st.return_code + calls.length) ∧
    ((runErrors st calls).stdoutLines =
      st.stdoutLines ++ calls.map (fun c => errorFormat c.1 c.2.1 c.2.2)) ∧
    ((runErrors st calls).stderrLines = st.stderrLines) := by
  refine ⟨rfl, ?_, ?_, ?_⟩
  · exact (runErrors_shape calls st).1
  · exact (runErrors_shape calls st).2.1
  · exact (runErrors_shape calls st).2.2

/-- The definition line of `#define E(x) x`. -/
def c4EDefLine : List Token :=
  [idTok "E" 1, litTok "(" 1, idTok "x" 1, litTok ")" 1, wsTok 1, idTok "x" 1]

/-- The definition line of `#define Y Z`. -/
def c4YDefLine : List Token :=
  [idTok "Y" 1, wsTok 1, idTok "Z" 1]

/-- The macro table after `#define Y Z` and `#define E(x) x`. -/
def c4Macros : Macros :=
  match define [] 50 c4YDefLine with
  | .ok p => (match define p.1 50 c4EDefLine with | .ok q => q.1 | .error _ => [])
  | .error _ => []

/-- The macro record of `E`. -/
def c4E : Macro := (lookupMacro c4Macros "E").getD default

/-- C4, counterexample.  Calling `E(Y)`: `macro_expand_args` does not leave
the caller's argument token lists unchanged.  The `'e'` patch runs
`self.expand_macros(args[0])`, which mutates the list in place; afterwards
the caller's argument list reads `[[Z]]` (stamped with
`expanded_from = ["Y"]`) instead of the original `[[Y]]`.  The expansion
also consists of those same argument tokens, spliced without copying. -/
theorem C4_arguments_mutated_counterexample :
    (macro_expand_args c4Macros 30 c4E [[idTok "Y" 4]] =
      Except.ok ([⟨"CPP_ID", "Z", 4, some "test.c", ["Y"]⟩],
                 [[⟨"CPP_ID", "Z", 4, some "test.c", ["Y"]⟩]], [])) ∧
    ([[(⟨"CPP_ID", "Z", 4, some "test.c", ["Y"]⟩ : Token)]] ≠ [[idTok "Y" 4]]) := by
  decide

/-- Whether a `macro_expand_args` result left the argument lists as they
were (trivially so on the exceptional path). -/
def argsUnchanged (r : Except Exc (List Token × List (List Token) × List Diagnostic))
    (args : List (List Token)) : Prop :=
  match r with
  | .ok t => t.2.1 = args
  | .error _ => True

/-- `applyPatches` leaves the argument lists untouched when no patch is an
expand patch. -/
theorem applyPatches_args_const (macros : Macros) :
    ∀ (fuel : Nat) (ps : List (Char × Nat × Nat)) (rep : List (Option Token))
      (args : List (List Token)) (expanded : List (Nat × List Token))
      (diags : List Diagnostic), 'e' ∉ ps.map (fun p => p.1) →
      (match applyPatches macros fuel ps rep args expanded diags with
       | .ok t => t.2.1 = args
       | .error _ => True) := by
  intro fuel
  induction fuel with
  | zero => intro ps rep args expanded diags _; simp [applyPatches]
  | succ f ih =>
    intro ps rep args expanded diags h
    match ps with
    | [] => simp [applyPatches]
    | (ptype, argnum, i) :: ps' =>
      have hpt : ptype ≠ 'e' := by
        intro he
        exact h (by simp [he])
      have h' : 'e' ∉ ps'.map (fun p => p.1) := by
        intro hmem
        exact h (by simp [hmem])
      by_cases hc : ptype = 'c'
      · simpa [applyPatches, hc] using
          ih ps' (rep.take i ++ (args.getD argnum []).map some ++ rep.drop (i + 1))
            args expanded diags h'
      · simpa [applyPatches, hc, hpt] using ih ps' rep args expanded diags h'

/-- C4, amended.  The replacement sequence starts as a fresh copy of the
macro's stored `value` (which is never modified), but argument tokens are
spliced into the expansion without copying, and the argument lists are
mutated in place: an `'e'` patch overwrites `args[argnum]` with its
macro-expanded form, and stringification rewrites the whitespace tokens of
the stringified argument.  Only when a macro has no expand patches and no
stringification patches does `macro_expand_args` leave the caller's
argument token lists unchanged. -/
theorem C4_args_frame_without_expand_patches (macros : Macros) (fuel : Nat) (m : Macro)
    (args : List (List Token)) (hstr : m.str_patch = [])
    (hpe : 'e' ∉ m.patch.map (fun p => p.1)) :
    argsUnchanged (macro_expand_args macros fuel m args) args := by
  match fuel with
  | 0 => simp [macro_expand_args, argsUnchanged]
  | f + 1 =>
    unfold macro_expand_args
    simp only [hstr, strPatchLoop]
    have hap := applyPatches_args_const macros f m.patch
      (if m.variadic then
        (match args.getLast? with
         | none => false
         | some a => a.isEmpty)
        |> (fun cp => if cp then commaPatch m.var_comma_patch
              (m.value.map (fun t => some (copyToken t)))
            else m.value.map (fun t => some (copyToken t)))
       else m.value.map (fun t => some (copyToken t)))
      args [] [] hpe
    by_cases hv : m.variadic
    · simp only [hv, if_pos]
      match hl : args.getLast? with
      | none => simp [argsUnchanged]
      | some a =>
        simp only [argsUnchanged]
        cases hcp : a.isEmpty with
        | true =>
          have := applyPatches_args_const macros f m.patch
            (commaPatch m.var_comma_patch (m.value.map (fun t => some (copyToken t))))
            args [] [] hpe
          revert this
          cases hap2 : applyPatches macros f m.patch
              (commaPatch m.var_comma_patch (m.value.map (fun t => some (copyToken t))))
              args [] [] with
          | error e => simp [hl, hcp, hap2]
          | ok t => intro hthis; simp [hl, hcp, hap2]; simpa [hap2] using hthis
        | false =>
          have := applyPatches_args_const macros f m.patch
            (m.value.map (fun t => some (copyToken t))) args [] [] hpe
          revert this
          cases hap2 : applyPatches macros f m.patch
              (m.value.map (fun t => some (copyToken t))) args [] [] with
          | error e => simp [hl, hcp, hap2]
          | ok t => intro hthis; simp [hl, hcp, hap2]; simpa [hap2] using hthis
    · simp only [hv, if_neg, Bool.false_eq_true, not_false_iff]
      have := applyPatches_args_const macros f m.patch
        (m.value.map (fun t => some (copyToken t))) args [] [] hpe
      revert this
      cases hap2 : applyPatches macros f m.patch
          (m.value.map (fun t => some (copyToken t))) args [] [] with
      | error e => simp [argsUnchanged, hap2]
      | ok t => intro hthis; simp [argsUnchanged, hap2]; simpa [hap2] using hthis

/-- Witness for `C4_args_frame_without_expand_patches`: a macro whose only
patch is a concatenation leaves its argument lists unchanged. -/
theorem C4_args_frame_witness :
    argsUnchanged
      (macro_expand_args []
        5 { name := "K", value := [idTok "u" 1], arglist := some ["a"], patch := [('c', 0, 0)] }
        [[idTok "w" 1]])
      [[idTok "w" 1]] :=
  C4_args_frame_without_expand_patches [] 5
    { name := "K", value := [idTok "u" 1], arglist := some ["a"], patch := [('c', 0, 0)] }
    [[idTok "w" 1]] rfl (by decide)

/-- A single `#elif`/`#else` step of a frame whose `iftrigger` is already
true never newly enables, keeps `iftrigger` true, and leaves the stack
unchanged. -/
theorem condStep_sibling (d : CondDir) (s : CondState) (hd : isElifOrElse d = true)
    (ht : s.iftrigger = true) :
    ((condStep d s).1.enable = true → s.enable = true) ∧
    (condStep d s).1.iftrigger = true ∧ (condStep d s).1.ifstack = s.ifstack := by
  cases d with
  | elifD r =>
    match hs : s.ifstack with
    | [] => simp [condStep, hs, ht]
    | top :: rest =>
      by_cases htop : top.1 = true
      · by_cases he : s.enable = true
        · simp [condStep, hs, htop, he, ht]
        · simp [condStep, hs, htop, he, ht]
      · simp [condStep, hs, htop, ht]
  | elseD =>
    match hs : s.ifstack with
    | [] => simp [condStep, hs, ht]
    | top :: rest =>
      by_cases htop : top.1 = true
      · by_cases he : s.enable = true
        · simp [condStep, hs, htop, he, ht]
        · simp [condStep, hs, htop, he, ht]
      · simp [condStep, hs, htop, ht]
  | ifD r => simp [isElifOrElse] at hd
  | ifdefD mem => simp [isElifOrElse] at hd
  | ifndefD mem => simp [isElifOrElse] at hd
  | endifD => simp [isElifOrElse] at hd

/-- C5.  At most one sibling branch of a conditional frame is ever
enabled.  (1) Once `iftrigger` is true, an `#elif`/`#else` of the same
frame never turns `enable` from false to true, keeps `iftrigger` true and
does not touch the stack.  (2) An `#elif` or `#else` reached while the
branch is enabled (and the outer frame enables) flips `enable` to false.
(3) Along any run of `#elif`/`#else` directives of the same frame, a
disabled state with `iftrigger` true stays disabled with `iftrigger` true
and the stack intact.  (4) The matching `#endif` pops the saved
`(enable, iftrigger)` pair off the stack, restoring the frame's state. -/
theorem C5_sibling_branches_exclusive :
    (∀ (s : CondState) (d : CondDir), isElifOrElse d = true → s.iftrigger = true →
      ((condStep d s).1.enable = true → s.enable = true) ∧
      (condStep d s).1.iftrigger = true ∧ (condStep d s).1.ifstack = s.ifstack) ∧
    (∀ (s : CondState) (r : Bool) (e t : Bool) (rest : List (Bool × Bool)),
      s.ifstack = (e, t) :: rest → e = true → s.enable = true →
      (condStep (.elifD r) s).1.enable = false ∧ (condStep .elseD s).1.enable = false) ∧
    (∀ (ds : List CondDir) (s : CondState), ds.all isElifOrElse = true →
      s.iftrigger = true → s.enable = false →
      (condRun ds s).enable = false ∧ (condRun ds s).iftrigger = true ∧
      (condRun ds s).ifstack = s.ifstack) ∧
    (∀ (s : CondState) (e t : Bool) (rest : List (Bool × Bool)),
      s.ifstack = (e, t) :: rest →
      condStep .endifD s = (⟨e, t, rest⟩, false)) := by
  refine ⟨?_, ?_, ?_, ?_⟩
  · exact fun s d hd ht => condStep_sibling d s hd ht
  · intro s r e t rest hs he hen
    constructor
    · simp [condStep, hs, he, hen]
    · simp [condStep, hs, he, hen]
  · intro ds
    induction ds with
    | nil => intro s _ ht he; simp [condRun, he, ht]
    | cons d ds ih =>
      intro s hall ht he
      have hd : isElifOrElse d = true := by
        have := List.all_eq_true.mp hall
        exact this d (List.mem_cons_self d ds)
      have hall' : ds.all isElifOrElse = true := by
        refine List.all_eq_true.mpr ?_
        intro x hx
        exact (List.all_eq_true.mp hall) x (List.mem_cons_of_mem d hx)
      have hstep := condStep_sibling d s hd ht
      have he' : (condStep d s).1.enable = false := by
        cases hh : (condStep d s).1.enable with
        | false => rfl
        | true => rw [hstep.1 hh] at he; exact absurd he (by simp)
      have hrun := ih ((condStep d s).1) hall' hstep.2.1 he'
      refine ⟨?_, ?_, ?_⟩
      · simpa [condRun] using hrun.1
      · simpa [condRun] using hrun.2.1
      · have hthis := hrun.2.2
        simp only [condRun, List.foldl_cons] at hthis ⊢
        rw [hthis, hstep.2.2]
  · intro s e t rest hs
    simp [condStep, hs]

/-- Witness for `C5_sibling_branches_exclusive`: a concrete triggered frame
stays disabled across an `#elif 1` and an `#else`, and `#endif` restores
the saved pair. -/
theorem C5_sibling_branches_exclusive_witness :
    ((condRun [.elifD true, .elseD] ⟨false, true, [(true, true)]⟩).enable = false ∧
     (condRun [.elifD true, .elseD] ⟨false, true, [(true, true)]⟩).iftrigger = true ∧
     (condRun [.elifD true, .elseD] ⟨false, true, [(true, true)]⟩).ifstack = [(true, true)]) ∧
    condStep .endifD ⟨false, false, [(true, false)]⟩ = (⟨true, false, []⟩, false) :=
  ⟨C5_sibling_branches_exclusive.2.2.1 [.elifD true, .elseD] ⟨false, true, [(true, true)]⟩
      (by decide) rfl rfl,
   C5_sibling_branches_exclusive.2.2.2 ⟨false, false, [(true, false)]⟩ true false [] rfl⟩

/-- The definition line of `#define LOG(fmt, ...) printf(fmt, ##__VA_ARGS__)`. -/
def c6DefLine : List Token :=
  [idTok "LOG" 1, litTok "(" 1, idTok "fmt" 1, litTok "," 1, wsTok 1,
   litTok "." 1, litTok "." 1, litTok "." 1, litTok ")" 1, wsTok 1,
   idTok "printf" 1, litTok "(" 1, idTok "fmt" 1, litTok "," 1, wsTok 1,
   dpTok 1, idTok "__VA_ARGS__" 1, litTok ")" 1]

/-- The macro table after defining `LOG`. -/
def c6Macros : Macros :=
  match define [] 50 c6DefLine with
  | .ok p => p.1
  | .error _ => []

/-- The invocation line `LOG("hi")`. -/
def c6CallEmpty : List Token :=
  [idTok "LOG" 2, litTok "(" 2, strTok "\"hi\"" 2, litTok ")" 2]

/-- The invocation line `LOG("x=%d", 7)`. -/
def c6CallNonEmpty : List Token :=
  [idTok "LOG" 3, litTok "(" 3, strTok "\"x=%d\"" 3, litTok "," 3, wsTok 3,
   intTok "7" 3, litTok ")" 3]

/-- C6.  For `#define LOG(fmt, ...) printf(fmt, ##__VA_ARGS__)` the
prescanner records in `var_comma_patch` exactly the position of the `,`
that immediately precedes `## __VA_ARGS__` in the stored replacement list
(position 3 of `printf ( fmt , __VA_ARGS__ )`); when the variadic argument
is empty that comma is deleted from the produced replacement, so
`LOG("hi")` expands to `printf("hi")` with no trailing comma, while
`LOG("x=%d", 7)` expands to `printf("x=%d", 7)`. -/
theorem C6_variadic_comma_elision :
    ((lookupMacro c6Macros "LOG").map (fun m => m.var_comma_patch) = some [3]) ∧
    ((lookupMacro c6Macros "LOG").map (fun m => tokvals m.value) =
      some "printf(fmt,__VA_ARGS__)") ∧
    ((expand_macros c6Macros 50 c6CallEmpty []).map (fun r => tokvals r.1) =
      Except.ok "printf(\"hi\")") ∧
    ((expand_macros c6Macros 50 c6CallNonEmpty []).map (fun r => tokvals r.1) =
      Except.ok "printf(\"x=%d\", 7)") := by
  decide

/-- An identifier token of the writer scenarios. -/
def c7Id (v : String) (ln : Nat) (src : String) : Token :=
  ⟨"CPP_ID", v, ln, some src, []⟩

/-- A newline token of the writer scenarios. -/
def c7Nl (ln : Nat) (src : String) : Token :=
  ⟨"CPP_WS", "\n", ln, some src, []⟩

/-- A stream with seven blank lines between two non-blank lines. -/
def c7StreamSeven : List Token :=
  [c7Id "alpha" 1 "main.c", c7Nl 1 "main.c"] ++
    (List.range 7).map (fun k => c7Nl (2 + k) "main.c") ++
    [c7Id "beta" 9 "main.c", c7Nl 9 "main.c"]

/-- A stream with six blank lines between two non-blank lines. -/
def c7StreamSix : List Token :=
  [c7Id "alpha" 1 "main.c", c7Nl 1 "main.c"] ++
    (List.range 6).map (fun k => c7Nl (2 + k) "main.c") ++
    [c7Id "beta" 8 "main.c", c7Nl 8 "main.c"]

/-- A stream whose source tag changes with no intervening blank line. -/
def c7StreamChange : List Token :=
  [c7Id "alpha" 1 "main.c", c7Nl 1 "main.c", c7Id "inc" 1 "hdr.h", c7Nl 1 "hdr.h"]

/-- A stream ending in blank lines. -/
def c7StreamTrailing : List Token :=
  [c7Id "alpha" 1 "main.c", c7Nl 1 "main.c", c7Nl 2 "main.c", c7Nl 3 "main.c"]

/-- C7.  The writer emits a synthetic marker `# <lineno-1> "<source>"\n`
before a non-blank line exactly when more than six blank lines have
accumulated (seven blanks trigger it and the buffered blanks are dropped;
six do not and the blanks are emitted verbatim) or when the source tag of
the line's first token differs from the previous non-blank line's; blank
content buffered at the end of the stream is discarded. -/
theorem C7_blank_runs_and_line_markers :
    (write c7StreamSeven = ["alpha", "\n", "# 8 \"main.c\"\n", "beta", "\n"]) ∧
    (write c7StreamSix =
      ["alpha", "\n", "\n", "\n", "\n", "\n", "\n", "\n", "beta", "\n"]) ∧
    (write c7StreamChange = ["alpha", "\n", "# 0 \"hdr.h\"\n", "inc", "\n"]) ∧
    (write c7StreamTrailing = ["alpha", "\n"]) := by
  decide

/-- The `for`/`else` search loop coincides with the spec-side description:
every failing candidate is tried in order, the first opening candidate
stops the scan, and the opened path is its join with the file name. -/
theorem searchLoop_spec (fs : FS) (filename : String) :
    ∀ (cands : List String),
      searchLoop fs filename cands = (specTried fs filename cands, specFound fs filename cands) := by
  intro cands
  induction cands with
  | nil => rfl
  | cons p ps ih =>
    cases hq : specOpens fs filename p with
    | true =>
      have hq' : (List.find? (fun q => q.1 = pjoin p filename) fs).isSome = true := hq
      simp [searchLoop, specTried, specFound, hq', hq]
    | false =>
      have hq' : (List.find? (fun q => q.1 = pjoin p filename) fs).isSome = false := hq
      simp [searchLoop, specTried, specFound, hq', hq, ih]

/-- The `>`-scan finds the closing bracket right after the inner tokens
when none of them spells `>`. -/
theorem gtIndex_append (gt : Token) (hgt : gt.value = ">") :
    ∀ (inner : List Token) (i : Nat), inner.all (fun t => t.value != ">") = true →
      gtIndex (inner ++ [gt]) i = some (i + inner.length) := by
  intro inner
  induction inner with
  | nil => intro i _; simp [gtIndex, hgt]
  | cons t ts ih =>
    intro i hall
    simp only [List.all_cons, Bool.and_eq_true, bne_iff_ne] at hall
    simp only [List.cons_append, gtIndex, if_neg hall.1, List.append_eq]
    rw [ih (i + 1) (by simpa using hall.2)]
    simp only [List.length_cons]
    congr 1
    omega

/-- C8.  For an `#include <name>` (first conjunct) the directories tried to
open the file are exactly the user `path` list, then the current directory
`""`, then `temp_path`, in order and truncated at the first successful
open; for an `#include "name"` (second conjunct) they are `temp_path`, then
`""`, then `path`; in both forms a `Couldn't find` diagnostic is emitted
exactly when no entry of that sequence opens successfully. -/
theorem C8_include_search_order (macros : Macros) (fuel : Nat) (fs : FS)
    (path temp_path : List String) :
    (∀ (lt gt : Token) (inner : List Token),
      lt.value = "<" → gt.value = ">" → inner.all (fun t => t.value != ">") = true →
      includeResolve macros fuel fs path temp_path (lt :: inner ++ [gt]) =
        Except.ok (specTried fs (tokvals inner) (path ++ [""] ++ temp_path),
                   specFound fs (tokvals inner) (path ++ [""] ++ temp_path),
                   match specFound fs (tokvals inner) (path ++ [""] ++ temp_path) with
                   | some _ => []
                   | none => [⟨lt.source, lt.lineno, .couldntFindFile (tokvals inner)⟩])) ∧
    (∀ (st : Token) (rest : List Token),
      st.type = "CPP_STRING" → st.value ≠ "<" →
      includeResolve macros fuel fs path temp_path (st :: rest) =
        Except.ok (specTried fs (quotedName st.value) (temp_path ++ [""] ++ path),
                   specFound fs (quotedName st.value) (temp_path ++ [""] ++ path),
                   match specFound fs (quotedName st.value) (temp_path ++ [""] ++ path) with
                   | some _ => []
                   | none => [⟨st.source, st.lineno, .couldntFindFile (quotedName st.value)⟩])) := by
  constructor
  · intro lt gt inner hlt hgt hin
    have hcond : ¬ (lt.value ≠ "<" ∧ lt.type ≠ "CPP_STRING") := by
      intro hc; exact hc.1 hlt
    simp only [includeResolve, List.cons_append, if_neg hcond, if_pos hlt]
    rw [gtIndex_append gt hgt inner 1 hin]
    simp only []
    have htake : (lt :: (inner ++ [gt])).take (1 + inner.length) = lt :: inner := by
      rw [Nat.add_comm 1 inner.length]
      simp [List.take_succ_cons, List.take_left]
    rw [htake]
    simp only [List.drop_succ_cons, List.drop_zero, searchLoop_spec]
    have hjoin : String.join (inner.map (fun t => t.value)) = tokvals inner := rfl
    rw [hjoin]
    cases hf : specFound fs (tokvals inner) (path ++ [""] ++ temp_path) with
    | none => simp [hf]
    | some q => simp [hf]
  · intro st rest hty hv
    have hcond : ¬ (st.value ≠ "<" ∧ st.type ≠ "CPP_STRING") := by
      intro hc; exact hc.2 hty
    simp only [includeResolve, if_neg hcond, if_neg hv, if_pos hty]
    rw [searchLoop_spec]
    cases hf : specFound fs (quotedName st.value) (temp_path ++ [""] ++ path) with
    | none => simp [hf]
    | some q => simp [hf]

/-- Witness for `C8_include_search_order`: a concrete `<a.h>` and a
concrete `"a.h"` against the two-slot file system `inc/a.h`. -/
theorem C8_include_search_order_witness :
    (includeResolve [] 5 [("inc/a.h", "")] ["inc"] ["tmp"]
        (litTok "<" 1 :: [idTok "a" 1, litTok "." 1, idTok "h" 1] ++ [litTok ">" 1]) =
      Except.ok (specTried [("inc/a.h", "")] (tokvals [idTok "a" 1, litTok "." 1, idTok "h" 1])
                   (["inc"] ++ [""] ++ ["tmp"]),
                 specFound [("inc/a.h", "")] (tokvals [idTok "a" 1, litTok "." 1, idTok "h" 1])
                   (["inc"] ++ [""] ++ ["tmp"]),
                 match specFound [("inc/a.h", "")] (tokvals [idTok "a" 1, litTok "." 1, idTok "h" 1])
                     (["inc"] ++ [""] ++ ["tmp"]) with
                 | some _ => []
                 | none => [⟨(litTok "<" 1).source, (litTok "<" 1).lineno,
                     .couldntFindFile (tokvals [idTok "a" 1, litTok "." 1, idTok "h" 1])⟩])) ∧
    (includeResolve [] 5 [("inc/a.h", "")] ["inc"] ["tmp"] [strTok "\"a.h\"" 1] =
      Except.ok (specTried [("inc/a.h", "")] (quotedName "\"a.h\"") (["tmp"] ++ [""] ++ ["inc"]),
                 specFound [("inc/a.h", "")] (quotedName "\"a.h\"") (["tmp"] ++ [""] ++ ["inc"]),
                 match specFound [("inc/a.h", "")] (quotedName "\"a.h\"")
                     (["tmp"] ++ [""] ++ ["inc"]) with
                 | some _ => []
                 | none => [⟨(strTok "\"a.h\"" 1).source, (strTok "\"a.h\"" 1).lineno,
                     .couldntFindFile (quotedName "\"a.h\"")⟩])) :=
  ⟨(C8_include_search_order [] 5 [("inc/a.h", "")] ["inc"] ["tmp"]).1
      (litTok "<" 1) (litTok ">" 1) [idTok "a" 1, litTok "." 1, idTok "h" 1]
      (by decide) (by decide) (by decide),
   (C8_include_search_order [] 5 [("inc/a.h", "")] ["inc"] ["tmp"]).2
      (strTok "\"a.h\"" 1) [] (by decide) (by decide)⟩

/-- Dropping as many elements as the matching prefix is `dropWhile`. -/
theorem drop_length_takeWhile (p : Token → Bool) :
    ∀ (l : List Token), l.drop (l.takeWhile p).length = l.dropWhile p := by
  intro l
  induction l with
  | nil => rfl
  | cons a l ih =>
    cases hp : p a with
    | true => simpa [List.takeWhile_cons, List.dropWhile_cons, hp] using ih
    | false => simp [List.takeWhile_cons, List.dropWhile_cons, hp]

/-- C9, counterexample.  On the empty token list with errors reported,
`collect_args` raises `IndexError` (the `tokenlist[0]` of the missing-`(`
diagnostic) instead of emitting a diagnostic and returning the sentinel,
so the claim does not hold for *every* token list. -/
theorem C9_empty_list_counterexample :
    collect_args [] false = Except.error .indexError := by
  decide

/-- The argument list of `(a,(b,c),d)` (with a space before `d`). -/
def c9Nested : List Token :=
  [litTok "(" 1, idTok "a" 1, litTok "," 1, litTok "(" 1, idTok "b" 1, litTok "," 1,
   idTok "c" 1, litTok ")" 1, litTok "," 1, wsTok 1, idTok "d" 1, litTok ")" 1]

/-- C9, amended (restricted to non-empty token lists).  When the first
non-whitespace token is not `(` — including when there is none — a
missing-`(` diagnostic naming the first token is emitted unless
`ignore_errors`, and the zero-consumed sentinel `(0, [], [])` is returned
(general conjunct).  `()` consumes both tokens and yields the single empty
argument `[[]]`; top-level commas split arguments while nested parentheses
suppress splitting and per-argument whitespace is stripped, with the count
including the closing parenthesis; a missing `)` yields the sentinel with
a diagnostic unless `ignore_errors`. -/
theorem C9_collect_args_behaviour :
    (∀ (t0 : Token) (rest : List Token),
      (((t0 :: rest).dropWhile isWS).headD default).value ≠ "(" →
      collect_args (t0 :: rest) false =
        Except.ok ((0, [], []), [⟨t0.source, t0.lineno, .missingLParenMacroArgs⟩]) ∧
      collect_args (t0 :: rest) true = Except.ok ((0, [], []), [])) ∧
    (collect_args [litTok "(" 1, litTok ")" 1] false = Except.ok ((2, [[]], [1, 1]), [])) ∧
    (collect_args c9Nested false =
      Except.ok ((12,
        [[idTok "a" 1],
         [litTok "(" 1, idTok "b" 1, litTok "," 1, idTok "c" 1, litTok ")" 1],
         [idTok "d" 1]],
        [1, 3, 9, 11]), [])) ∧
    (collect_args [litTok "(" 1, idTok "z" 1] false =
      Except.ok ((0, [], []), [⟨some "test.c", 1, .missingRParenMacroArgs⟩])) ∧
    (collect_args [litTok "(" 1, idTok "z" 1] true = Except.ok ((0, [], []), [])) := by
  refine ⟨?_, by decide, by decide, by decide, by decide⟩
  intro t0 rest h
  have hd := drop_length_takeWhile isWS (t0 :: rest)
  constructor
  · simp only [collect_args]
    rw [hd]
    cases hdw : (t0 :: rest).dropWhile isWS with
    | nil => simp
    | cons t ts =>
      have ht : t.value ≠ "(" := by rw [hdw] at h; simpa using h
      simp [ht]
  · simp only [collect_args]
    rw [hd]
    cases hdw : (t0 :: rest).dropWhile isWS with
    | nil => simp
    | cons t ts =>
      have ht : t.value ≠ "(" := by rw [hdw] at h; simpa using h
      simp [ht]

/-- Witness for `C9_collect_args_behaviour`: a list whose first
non-whitespace token is an identifier, with and without error reporting. -/
theorem C9_collect_args_behaviour_witness :
    collect_args [wsTok 1, idTok "q" 1] false =
      Except.ok ((0, [], []), [⟨some "test.c", 1, .missingLParenMacroArgs⟩]) ∧
    collect_args [wsTok 1, idTok "q" 1] true = Except.ok ((0, [], []), []) :=
  C9_collect_args_behaviour.1 (wsTok 1) [idTok "q" 1] (by decide)

/-- C10.  With the conditional state enabled, an `#ifdef` or `#ifndef`
directive with no argument pushes the frame and then raises `IndexError`
at `args[0]`; an `#if` with an empty argument list reaches the
evaluation-failure branch of `evalexpr`, whose `tokens[0]` raises
`IndexError` on the empty list.  In each case the exception propagates
(no diagnostic is produced) and `return_code` is not incremented. -/
theorem C10_empty_conditional_crashes (macros : Macros) (fuel : Nat) (s : PState)
    (hen : s.enable = true) :
    (ifdefDirective macros [] s =
      (some .indexError, { s with ifstack := (s.enable, s.iftrigger) :: s.ifstack })) ∧
    (ifndefDirective macros [] s =
      (some .indexError, { s with ifstack := (s.enable, s.iftrigger) :: s.ifstack })) ∧
    ((ifdefDirective macros [] s).2.return_code = s.return_code) ∧
    (evalexpr macros (fuel + 2) [] = Except.error .indexError) ∧
    (ifDirective macros (fuel + 2) [] s =
      (some .indexError, { s with ifstack := (s.enable, s.iftrigger) :: s.ifstack })) ∧
    ((ifDirective macros (fuel + 2) [] s).2.return_code = s.return_code) := by
  have hev : evalexpr macros (fuel + 2) [] = Except.error .indexError := by
    simp only [evalexpr, definedLoop, expand_macros, emLoop]
    rfl
  refine ⟨?_, ?_, ?_, hev, ?_, ?_⟩
  · simp [ifdefDirective, hen]
  · simp [ifndefDirective, hen]
  · simp [ifdefDirective, hen]
  · simp [ifDirective, hen, hev]
  · simp [ifDirective, hen, hev]

/-- Witness for `C10_empty_conditional_crashes` at the initial state. -/
theorem C10_empty_conditional_crashes_witness :
    (ifdefDirective [] [] ⟨true, false, [], 0, []⟩ =
      (some .indexError, ⟨true, false, [(true, false)], 0, []⟩)) ∧
    (ifndefDirective [] [] ⟨true, false, [], 0, []⟩ =
      (some .indexError, ⟨true, false, [(true, false)], 0, []⟩)) ∧
    ((ifdefDirective [] [] ⟨true, false, [], 0, []⟩).2.return_code = 0) ∧
    (evalexpr [] 2 [] = Except.error .indexError) ∧
    (ifDirective [] 2 [] ⟨true, false, [], 0, []⟩ =
      (some .indexError, ⟨true, false, [(true, false)], 0, []⟩)) ∧
    ((ifDirective [] 2 [] ⟨true, false, [], 0, []⟩).2.return_code = 0) :=
  C10_empty_conditional_crashes [] 0 ⟨true, false, [], 0, []⟩ rfl

end Pcpp
